import Mathlib

/-!
Verification of the task-orchestrator core against its natural-language
specification.  The definitions below are a shallow embedding of the
repository's Python sources:

* `src/state/redis_manager.py`   — task/agent records, the Redis-backed
  state store (tasks, agent registry, per-type priority queues), both as a
  concrete no-fault semantics (`Store` and its operations) and as a
  fallible-backend semantics used for the exception-handling claims
  (`FallibleBackend` and the `*F` operations);
* `src/core/load_balancer.py`    — agent availability filtering and the
  four selection strategies;
* `src/core/execution_engine.py` — per-stage dispatch and the PARALLEL
  aggregation;
* `src/core/orchestrator.py`     — the workflow table and the
  `_execute_task` control path (dispatch, retry, terminal writes);
* `src/agents/base_agent.py`     — the worker-side `execute` wrapper and
  shutdown flag;
* `src/monitoring/metrics.py`    — histogram statistics and the
  percentile index computation.

Python floats (timestamps, durations, metric samples) are embedded as
rationals, Python ints as `Int`/`Nat`, dictionaries holding opaque
payloads as association lists or `String` placeholders, and fallible
calls as `Except String`.  Wall-clock measurements and the asyncio event
loop are modelled by explicit parameters (durations, call outcomes) and
sequential state threading; pub/sub publication is not modelled (no claim
depends on it).
-/

/-- Task lifecycle states, from `TaskStatus` in `src/state/redis_manager.py`. -/
inductive TaskStatus
  | pending
  | queued
  | running
  | completed
  | failed
  | cancelled
  | retrying
deriving DecidableEq, Repr

/-- Structured error envelope stored in `TaskState.error`
(`{message, code, retryable}` dictionaries in the source). -/
structure ErrEnvelope where
  message : String
  code : String
  retryable : Option Bool
deriving DecidableEq, Repr

/-- One per-stage record appended by `add_agent_execution`
(the dictionaries built in `src/core/execution_engine.py`). -/
structure AgentExecRecord where
  agent_id : String
  agent_type : String
  status : String
  execution_time_ms : ℚ
  error : Option String
deriving DecidableEq, Repr

/-- The parts of `TaskState.metadata` the core reads: `inputs`,
`parameters` and `execution_mode`.  Input and parameter payloads are
opaque to the orchestrator, so they are embedded as strings. -/
structure TaskMeta where
  inputs : List String
  parameters : List (String × String)
  execution_mode : Option String
deriving DecidableEq, Repr

/-- `TaskState` from `src/state/redis_manager.py`.  Timestamps are
rationals; `output` is the opaque aggregated result the orchestrator
writes back (a dictionary in the source, embedded as a string payload). -/
structure TaskState where
  task_id : String
  status : TaskStatus
  task_type : String
  created_at : ℚ
  updated_at : ℚ
  agent_executions : List AgentExecRecord
  metadata : TaskMeta
  output : Option String
  error : Option ErrEnvelope
  retry_count : Int
  priority : Int
deriving DecidableEq, Repr

/-- `AgentInfo` from `src/state/redis_manager.py`. -/
structure AgentInfo where
  agent_id : String
  agent_type : String
  endpoint : String
  capabilities : List String
  max_concurrent_tasks : Int
  current_tasks : Int
  healthy : Bool
  last_heartbeat : ℚ
deriving DecidableEq, Repr

/-! ### Byte order on strings

Redis sorted sets order members with equal scores lexicographically by
byte value.  `String` comparison in Lean does not reduce well in the
kernel, so the order is spelled out on the character lists. -/

/-- Lexicographic strict order on character lists by code point. -/
def charListLt : List Char → List Char → Bool
  | [], [] => false
  | [], _ :: _ => true
  | _ :: _, [] => false
  | a :: as, b :: bs =>
    if a.toNat < b.toNat then true
    else if b.toNat < a.toNat then false
    else charListLt as bs

/-- Lexicographic strict order on strings (Redis member order). -/
def strLt (a b : String) : Bool := charListLt a.data b.data

/-- Reflexive lexicographic order on strings. -/
def strLe (a b : String) : Bool := !(strLt b a)

/-! ### Association-list helpers

The Redis keyspace (`task:<id>`, `agent:<id>`, `queue:<type>`,
`agent:type:<type>`) is embedded as association lists from key to parsed
record; JSON (de)serialisation of well-formed records is the identity
and is not modelled. -/

/-- Write `k ↦ v`, replacing any previous binding of `k` (Redis `SET`). -/
def assocSet {α : Type} (l : List (String × α)) (k : String) (v : α) :
    List (String × α) :=
  (k, v) :: l.filter (fun e => !(e.1 == k))

/-! ### Sorted-set semantics

`queue:<task_type>` is a Redis sorted set: a finite set of members with
numeric scores.  `ZADD` inserts or overwrites a member's score; `ZPOPMIN`
removes and returns the member with the least `(score, member)` pair,
members with equal scores being ordered lexicographically by byte value. -/

/-- An entry of a sorted set: member (task id) and score (priority). -/
abbrev ZEntry := String × Int

/-- Strict order on sorted-set entries: by score, then member byte order. -/
def zentryLt (a b : ZEntry) : Bool :=
  decide (a.2 < b.2) || (decide (a.2 = b.2) && strLt a.1 b.1)

/-- `ZADD key {member: score}`: insert, overwriting an existing member. -/
def zadd (q : List ZEntry) (member : String) (score : Int) : List ZEntry :=
  q.filter (fun e => !(e.1 == member)) ++ [(member, score)]

/-- The least entry of `x :: xs` under `zentryLt` (first minimum). -/
def zminEntry (x : ZEntry) : List ZEntry → ZEntry
  | [] => x
  | y :: ys => zminEntry (if zentryLt y x then y else x) ys

/-- `ZPOPMIN key 1`: remove and return the least entry, or `none`. -/
def zpopmin (q : List ZEntry) : Option (ZEntry × List ZEntry) :=
  match q with
  | [] => none
  | x :: xs =>
    let m := zminEntry x xs
    some (m, (x :: xs).erase m)

/-! ### Concrete state store (`RedisStateManager`, no-fault semantics) -/

/-- The logical keyspace of `RedisStateManager`: task records, per-type
priority queues (sorted sets), agent records and the per-type set of
agent ids. -/
structure Store where
  tasks : List (String × TaskState)
  queues : List (String × List ZEntry)
  agents : List (String × AgentInfo)
  typeIndex : List (String × List String)
deriving DecidableEq, Repr

/-- The sorted set stored at `queue:<task_type>` (empty if absent). -/
def queueOf (s : Store) (task_type : String) : List ZEntry :=
  (s.queues.lookup task_type).getD []

/-- `RedisStateManager.get_task`. -/
def getTask (s : Store) (task_id : String) : Option TaskState :=
  s.tasks.lookup task_id

/-- `RedisStateManager.create_task`: one pipeline writing the task record
and `ZADD`-ing its id into `queue:<task_type>` scored by `priority`. -/
def createTask (s : Store) (t : TaskState) : Bool × Store :=
  let q := zadd (queueOf s t.task_type) t.task_id t.priority
  (true,
   { s with
     tasks := assocSet s.tasks t.task_id t,
     queues := assocSet s.queues t.task_type q })

/-- The record written back by `RedisStateManager.update_task_status`:
status and `updated_at` always refreshed, `error`/`output` only when the
corresponding argument is present (truthy in the source). -/
def updatedRecord (t : TaskState) (status : TaskStatus)
    (error : Option ErrEnvelope) (output : Option String) (now : ℚ) :
    TaskState :=
  let err2 := match error with
    | some e => some e
    | none => t.error
  let out2 := match output with
    | some o => some o
    | none => t.output
  { t with status := status, updated_at := now, error := err2, output := out2 }

/-- `RedisStateManager.update_task_status`: read, mutate, write back;
returns `false` when the task does not exist.  The pub/sub publication
that follows the write carries no state and is not modelled. -/
def updateTaskStatus (s : Store) (task_id : String) (status : TaskStatus)
    (error : Option ErrEnvelope) (output : Option String) (now : ℚ) :
    Bool × Store :=
  match getTask s task_id with
  | none => (false, s)
  | some t =>
    let t2 := updatedRecord t status error output now
    (true, { s with tasks := assocSet s.tasks task_id t2 })

/-- `RedisStateManager.add_agent_execution`: append one per-stage record
and refresh `updated_at`. -/
def addAgentExecution (s : Store) (task_id : String)
    (record : AgentExecRecord) (now : ℚ) : Bool × Store :=
  match getTask s task_id with
  | none => (false, s)
  | some t =>
    let t2 := { t with agent_executions := t.agent_executions ++ [record], updated_at := now }
    (true, { s with tasks := assocSet s.tasks task_id t2 })

/-- `RedisStateManager.get_next_task`: `ZPOPMIN` on `queue:<task_type>`,
returning the popped task id and the store with the entry removed. -/
def getNextTask (s : Store) (task_type : String) : Option String × Store :=
  match zpopmin (queueOf s task_type) with
  | none => (none, s)
  | some (e, rest) =>
    (some e.1, { s with queues := assocSet s.queues task_type rest })

/-- `RedisStateManager.get_queue_length`: `ZCARD`. -/
def getQueueLength (s : Store) (task_type : String) : Nat :=
  (queueOf s task_type).length

/-- `RedisStateManager.register_agent`: write the record and add the id
to the `agent:type:<agent_type>` set. -/
def registerAgent (s : Store) (a : AgentInfo) : Bool × Store :=
  let ids := (s.typeIndex.lookup a.agent_type).getD []
  let ids2 := if ids.contains a.agent_id then ids else ids ++ [a.agent_id]
  (true,
   { s with
     agents := assocSet s.agents a.agent_id a,
     typeIndex := assocSet s.typeIndex a.agent_type ids2 })

/-- `RedisStateManager.get_agent`. -/
def getAgent (s : Store) (agent_id : String) : Option AgentInfo :=
  s.agents.lookup agent_id

/-- `RedisStateManager.get_agents_by_type`: resolve the ids in the type
set and keep only existing records whose `healthy` flag is true. -/
def getAgentsByType (s : Store) (agent_type : String) : List AgentInfo :=
  ((s.typeIndex.lookup agent_type).getD []).filterMap fun id =>
    match getAgent s id with
    | some a => if a.healthy then some a else none
    | none => none

/-- All records registered under a capability, with no health filter
(used to state selection claims). -/
def agentRecordsOfType (s : Store) (agent_type : String) : List AgentInfo :=
  ((s.typeIndex.lookup agent_type).getD []).filterMap fun id => getAgent s id

/-- `RedisStateManager.increment_agent_tasks`: the new count is
`max(0, current_tasks + increment)` — clamped below at zero only. -/
def incrementAgentTasks (s : Store) (agent_id : String) (increment : Int) :
    Bool × Store :=
  match getAgent s agent_id with
  | none => (false, s)
  | some a =>
    let a2 := { a with current_tasks := max 0 (a.current_tasks + increment) }
    (true, { s with agents := assocSet s.agents agent_id a2 })

/-! ### Fallible backend (`RedisStateManager`, exception semantics)

Every public `RedisStateManager` method wraps its body in
`try ... except`, so backend exceptions never escape.  To state that, the
Redis primitives the methods invoke are modelled as calls into a
`FallibleBackend` that may raise (`Except.error`); each `*F` operation
below is the literal translation of one method body, with the trailing
`except` clause as the outer `match`. -/

/-- The Redis primitives invoked by the `RedisStateManager` methods under
scrutiny, each of which may raise a backend exception. -/
structure FallibleBackend where
  pipe_create : TaskState → Except String Unit
  get_task_raw : String → Except String (Option TaskState)
  set_task_raw : String → TaskState → Except String Unit
  publish : String → String → Except String Unit
  zpopmin_raw : String → Except String (Option ZEntry)
  zcard_raw : String → Except String Nat
  smembers : String → Except String (List String)
  get_agent_raw : String → Except String (Option AgentInfo)

/-- `create_task` over a fallible backend: the `SET` + `ZADD` pipeline
either commits or raises; on raise the method returns `False`. -/
def createTaskF (b : FallibleBackend) (t : TaskState) : Bool :=
  match b.pipe_create t with
  | .ok _ => true
  | .error _ => false

/-- `get_task` over a fallible backend: `None` on raise or missing key. -/
def getTaskF (b : FallibleBackend) (task_id : String) : Option TaskState :=
  match b.get_task_raw ("task:" ++ task_id) with
  | .ok v => v
  | .error _ => none

/-- `update_task_status` over a fallible backend: the inner read uses
`get_task` (which already catches), the write and publish may raise, and
the outer `except` returns `False`. -/
def updateTaskStatusF (b : FallibleBackend) (task_id : String)
    (status : TaskStatus) (error : Option ErrEnvelope)
    (output : Option String) (now : ℚ) : Bool :=
  match getTaskF b task_id with
  | none => false
  | some t =>
    match b.set_task_raw ("task:" ++ task_id) (updatedRecord t status error output now) with
    | .error _ => false
    | .ok _ =>
      match b.publish ("task_updates:" ++ task_id) "status" with
      | .error _ => false
      | .ok _ => true

/-- `add_agent_execution` over a fallible backend. -/
def addAgentExecutionF (b : FallibleBackend) (task_id : String)
    (record : AgentExecRecord) (now : ℚ) : Bool :=
  match getTaskF b task_id with
  | none => false
  | some t =>
    let t2 := { t with agent_executions := t.agent_executions ++ [record], updated_at := now }
    match b.set_task_raw ("task:" ++ task_id) t2 with
    | .error _ => false
    | .ok _ => true

/-- `get_next_task` over a fallible backend: `None` on raise or empty
queue. -/
def getNextTaskF (b : FallibleBackend) (task_type : String) : Option String :=
  match b.zpopmin_raw ("queue:" ++ task_type) with
  | .ok (some e) => some e.1
  | .ok none => none
  | .error _ => none

/-- `get_queue_length` over a fallible backend: `0` on raise. -/
def getQueueLengthF (b : FallibleBackend) (task_type : String) : Nat :=
  match b.zcard_raw ("queue:" ++ task_type) with
  | .ok n => n
  | .error _ => 0

/-- `get_agent` over a fallible backend: `None` on raise or missing key. -/
def getAgentF (b : FallibleBackend) (agent_id : String) : Option AgentInfo :=
  match b.get_agent_raw ("agent:" ++ agent_id) with
  | .ok v => v
  | .error _ => none

/-- `get_agents_by_type` over a fallible backend: the per-id reads use
`get_agent` (which already catches); a raise in `SMEMBERS` yields `[]`. -/
def getAgentsByTypeF (b : FallibleBackend) (agent_type : String) :
    List AgentInfo :=
  match b.smembers ("agent:type:" ++ agent_type) with
  | .error _ => []
  | .ok ids =>
    ids.filterMap fun id =>
      match getAgentF b id with
      | some a => if a.healthy then some a else none
      | none => none

/-! ### Load balancer (`src/core/load_balancer.py`) -/

/-- `LoadBalancingStrategy`. -/
inductive LoadBalancingStrategy
  | round_robin
  | least_loaded
  | random
  | weighted
deriving DecidableEq, Repr

/-- The in-process state of a `LoadBalancer`: configured strategy (the
orchestrator uses the default `LEAST_LOADED`) and the per-type
round-robin counters. -/
structure LBState where
  strategy : LoadBalancingStrategy
  round_robin_counters : List (String × Nat)
deriving DecidableEq, Repr

/-- `LoadBalancer._is_agent_available`: healthy, heartbeat at most 30
seconds old, and strictly below capacity. -/
def isAgentAvailable (now : ℚ) (a : AgentInfo) : Bool :=
  a.healthy && decide (now - a.last_heartbeat ≤ 30)
    && decide (a.current_tasks < a.max_concurrent_tasks)

/-- `LoadBalancer._select_least_loaded`: stable sort by `current_tasks`
ascending, first element. -/
def selectLeastLoaded (agents : List AgentInfo) : Option AgentInfo :=
  (List.insertionSort (fun a b => a.current_tasks ≤ b.current_tasks) agents).head?

/-- `LoadBalancer._select_round_robin`: counter modulo list length, then
increment the counter. -/
def selectRoundRobin (lb : LBState) (agent_type : String)
    (agents : List AgentInfo) : Option AgentInfo × LBState :=
  let i := (lb.round_robin_counters.lookup agent_type).getD 0
  (agents[i % agents.length]?,
   { lb with round_robin_counters := assocSet lb.round_robin_counters agent_type (i + 1) })

/-- The weighted score `(max − current) × (1 − current/max)`; utilization
is taken as `1.0` when `max_concurrent_tasks` is not positive. -/
def weightedScore (a : AgentInfo) : ℚ :=
  let available_capacity : ℚ := ((a.max_concurrent_tasks - a.current_tasks : Int) : ℚ)
  let utilization : ℚ :=
    if a.max_concurrent_tasks > 0 then
      (a.current_tasks : ℚ) / (a.max_concurrent_tasks : ℚ)
    else 1
  available_capacity * (1 - utilization)

/-- First entry with maximal score (a stable descending sort followed by
taking the head, as in `_select_weighted`). -/
def pickMaxScore : List (ℚ × AgentInfo) → Option (ℚ × AgentInfo)
  | [] => none
  | x :: xs =>
    match pickMaxScore xs with
    | none => some x
    | some y => if decide (x.1 < y.1) then some y else some x

/-- `LoadBalancer._select_weighted`. -/
def selectWeighted (agents : List AgentInfo) : Option AgentInfo :=
  (pickMaxScore (agents.map fun a => (weightedScore a, a))).map (·.2)

/-- `LoadBalancer._select_random`: `random.choice`, modelled by an
externally supplied index reduced modulo the list length. -/
def selectRandomPick (rand : Nat) (agents : List AgentInfo) : Option AgentInfo :=
  agents[rand % agents.length]?

/-- `LoadBalancer.select_agent`: fetch the healthy agents of the type,
filter by `_is_agent_available`, and apply the configured strategy.
Returns the selection together with the (possibly updated) balancer
state. -/
def selectAgent (lb : LBState) (s : Store) (now : ℚ) (rand : Nat)
    (agent_type : String) : Option AgentInfo × LBState :=
  let agents := getAgentsByType s agent_type
  if agents.isEmpty then (none, lb)
  else
    let available := agents.filter (isAgentAvailable now)
    if available.isEmpty then (none, lb)
    else
      match lb.strategy with
      | .least_loaded => (selectLeastLoaded available, lb)
      | .round_robin => selectRoundRobin lb agent_type available
      | .weighted => (selectWeighted available, lb)
      | .random => (selectRandomPick rand available, lb)

/-! ### Execution engine (`src/core/execution_engine.py`) -/

/-- The per-stage timeout configured in `ExecutionEngine.__init__`
(`self.grpc_timeout = 30` seconds). -/
def grpcTimeout : ℚ := 30

/-- A worker output envelope (a dictionary in the source).  Python
truthiness of the dictionary matters in `execute_parallel`, so it is
embedded as its key/value list. -/
abbrev AgentOut := List (String × String)

/-- One stage of an execution plan, as built by
`Orchestrator._build_execution_plan`. -/
structure StagePlan where
  agent_id : String
  agent_type : String
  endpoint : String
  inputs : List String
  parameters : List (String × String)
deriving DecidableEq, Repr

/-- The observable behaviour of one `_call_agent_grpc` invocation: how
long the awaited call takes (seconds) and whether it returns an output
envelope or raises. -/
structure CallOutcome where
  duration : ℚ
  result : Except String AgentOut
deriving Repr

/-- `AgentTaskResult` from `src/core/execution_engine.py`. -/
structure AgentTaskResult where
  agent_id : String
  agent_type : String
  status : String
  output : Option AgentOut
  error : Option String
  execution_time_ms : ℚ
deriving DecidableEq, Repr

/-- `ExecutionEngine._execute_agent_task`: increment the agent's task
count, await `_call_agent_grpc`, decrement, and convert the outcome into
an `AgentTaskResult`.  Every exception from the call is caught and
becomes a `status = "failed"` result — the coroutine itself never
raises.  No timeout is applied to the awaited call: the measured
`execution_time_ms` is simply the call's full duration and the status
does not depend on it. -/
def executeAgentTask (s : Store) (outcome : CallOutcome) (plan : StagePlan) :
    Store × AgentTaskResult :=
  let s1 := (incrementAgentTasks s plan.agent_id 1).2
  match outcome.result with
  | .ok out =>
    let s2 := (incrementAgentTasks s1 plan.agent_id (-1)).2
    (s2, { agent_id := plan.agent_id, agent_type := plan.agent_type,
           status := "completed", output := some out, error := none,
           execution_time_ms := outcome.duration * 1000 })
  | .error e =>
    let s2 := (incrementAgentTasks s1 plan.agent_id (-1)).2
    (s2, { agent_id := plan.agent_id, agent_type := plan.agent_type,
           status := "failed", output := none, error := some e,
           execution_time_ms := outcome.duration * 1000 })

/-- One element of the list `asyncio.gather(..., return_exceptions=True)`
produces: either an exception escaping the coroutine or its return
value. -/
inductive GatherItem
  | exc (message : String)
  | res (r : AgentTaskResult)
deriving DecidableEq, Repr

/-- Run the stage coroutines of `execute_parallel` in plan order,
threading the store.  Since `_execute_agent_task` catches every
exception, each gather item is a `.res`. -/
def runStages (s : Store) :
    List (StagePlan × CallOutcome) → Store × List GatherItem
  | [] => (s, [])
  | (p, o) :: rest =>
    let step := executeAgentTask s o p
    let tail := runStages step.1 rest
    (tail.1, GatherItem.res step.2 :: tail.2)

/-- The per-stage dictionary `execute_parallel` and `execute_sequential`
record via `add_agent_execution`. -/
def execRecordOf (r : AgentTaskResult) : AgentExecRecord :=
  { agent_id := r.agent_id, agent_type := r.agent_type, status := r.status,
    execution_time_ms := r.execution_time_ms, error := r.error }

/-- The result-processing loop of `execute_parallel`: gather items that
are exceptions are collected as `(agent_id, error)` failure dictionaries;
everything else is appended to the successful results and recorded on the
task.  Returns the threaded store, the successful results and the failed
results, in iteration order. -/
def classifyParallel (s : Store) (task_id : String) (now : ℚ) :
    List (StagePlan × GatherItem) →
      Store × List AgentTaskResult × List (String × String)
  | [] => (s, [], [])
  | (plan, item) :: rest =>
    match item with
    | .exc msg =>
      let tail := classifyParallel s task_id now rest
      (tail.1, tail.2.1, (plan.agent_id, msg) :: tail.2.2)
    | .res r =>
      let s2 := (addAgentExecution s task_id (execRecordOf r) now).2
      let tail := classifyParallel s2 task_id now rest
      (tail.1, r :: tail.2.1, tail.2.2)

/-- The aggregate dictionary `execute_parallel` returns. -/
structure ParallelResult where
  successful_agents : Nat
  failed_agents : Nat
  results : List AgentOut
  errors : List (String × String)
  execution_time_ms : ℚ
deriving DecidableEq, Repr

/-- `ExecutionEngine.execute_parallel`: dispatch every stage, gather,
classify, and aggregate.  `elapsed` is the measured wall-clock time of
the whole gather.  Raises (`Except.error`) exactly when the failed list
is non-empty and covers the whole plan; the aggregate's `results` list
keeps only truthy (non-empty) outputs of the successful results. -/
def executeParallel (s : Store) (task_id : String) (plan : List StagePlan)
    (outcomes : List CallOutcome) (now elapsed : ℚ) :
    Store × Except String ParallelResult :=
  let gathered := runStages s (plan.zip outcomes)
  let classified := classifyParallel gathered.1 task_id now (plan.zip gathered.2)
  let successful_results := classified.2.1
  let failed_results := classified.2.2
  if !failed_results.isEmpty && failed_results.length = plan.length then
    (classified.1, .error "All agents failed")
  else
    (classified.1,
     .ok { successful_agents := successful_results.length,
           failed_agents := failed_results.length,
           results := successful_results.filterMap fun r =>
             match r.output with
             | some o => if o.isEmpty then none else some o
             | none => none,
           errors := failed_results,
           execution_time_ms := elapsed })

/-! ### Orchestrator (`src/core/orchestrator.py`) -/

/-- The workflow table `Orchestrator.task_agent_mapping`; an unknown task
type yields the `.get(..., [])` default `[]`. -/
def taskAgentMapping (task_type : String) : List String :=
  if task_type = "report_generation" then
    ["data_ingest", "data_analysis", "synthesis"]
  else if task_type = "real_time_monitoring" then
    ["video_detection", "alerting"]
  else if task_type = "data_analysis" then
    ["data_analysis"]
  else if task_type = "api_call" then
    ["api_caller"]
  else if task_type = "podcast_intelligence" then
    ["rss_feed_monitor", "podcast_transcript", "transcript_summary", "industry_synthesis"]
  else if task_type = "document_intelligence" then
    ["document_reader", "transcript_summary", "industry_synthesis"]
  else if task_type = "content_summarization" then
    ["transcript_summary"]
  else if task_type = "industry_synthesis_only" then
    ["industry_synthesis"]
  else []

/-- `Orchestrator._build_execution_plan`: one load-balancer pick per
required capability; raises as soon as a capability has no available
agent.  The balancer state is threaded (round-robin counters). -/
def buildExecutionPlan (s : Store) (now : ℚ) (rand : Nat) (t : TaskState) :
    LBState → List String → Except String (List StagePlan × LBState)
  | lb, [] => .ok ([], lb)
  | lb, agent_type :: rest =>
    match selectAgent lb s now rand agent_type with
    | (none, _) => .error ("No available agents for type: " ++ agent_type)
    | (some a, lb2) =>
      match buildExecutionPlan s now rand t lb2 rest with
      | .error e => .error e
      | .ok tail =>
        .ok ({ agent_id := a.agent_id, agent_type := agent_type,
               endpoint := a.endpoint, inputs := t.metadata.inputs,
               parameters := t.metadata.parameters } :: tail.1,
             tail.2)

/-- The engine call `_execute_task` awaits once the plan is built: one of
`execute_parallel` / `execute_sequential` / `execute_hybrid`, chosen by
the task's `execution_mode`.  Its outcome (an aggregated output
dictionary, or an exception) is supplied as a parameter; the aggregated
output is opaque to the orchestrator and embedded as a string payload. -/
abbrev EngineCall := List StagePlan → TaskState → Except String String

/-- `Orchestrator._execute_task`: mark RUNNING, look up the workflow
table (raising on an unknown task type), build the plan, await the
engine, and write the terminal outcome back.  Every exception lands in
the single generic handler: with `retry_count < 3` the local snapshot's
`retry_count` is incremented, the task is marked RETRYING and then
re-created (re-enqueued) from the snapshot; otherwise the task is marked
FAILED with the generic code `EXECUTION_FAILED`. -/
def executeTask (engine : EngineCall) (s : Store) (lb : LBState) (rand : Nat)
    (now : ℚ) (task_id : String) : Store :=
  match getTask s task_id with
  | none => s
  | some t =>
    let s1 := (updateTaskStatus s task_id .running none none now).2
    let required := taskAgentMapping t.task_type
    let body : Except String String :=
      if required.isEmpty then
        .error ("Unknown task type: " ++ t.task_type)
      else
        match buildExecutionPlan s1 now rand t lb required with
        | .error e => .error e
        | .ok plan => engine plan.1 t
    match body with
    | .ok result => (updateTaskStatus s1 task_id .completed none (some result) now).2
    | .error e =>
      if t.retry_count < 3 then
        let t2 := { t with retry_count := t.retry_count + 1 }
        let s2 := (updateTaskStatus s1 task_id .retrying none none now).2
        (createTask s2 t2).2
      else
        let err := { message := e, code := "EXECUTION_FAILED", retryable := some false : ErrEnvelope }
        (updateTaskStatus s1 task_id .failed (some err) none now).2

/-! ### Worker agent framework (`src/agents/base_agent.py`) -/

/-- `AgentInput`: `data is None` is the rejected case, so the payload is
an `Option`. -/
structure AgentInputE where
  input_id : String
  input_type : String
  data : Option String
deriving DecidableEq, Repr

/-- `AgentOutput`. -/
structure AgentOutputE where
  output_type : String
  data : String
  metadata : List (String × String)
deriving DecidableEq, Repr

/-- The mutable fields of a `BaseAgent`. -/
structure BAgentState where
  agent_id : String
  agent_type : String
  max_concurrent_tasks : Nat
  current_tasks : Int
  total_completed : Nat
  total_failed : Nat
  healthy : Bool
deriving DecidableEq, Repr

/-- `BaseAgent._validate_inputs` on one input after another: empty
`input_type` and missing `data` raise. -/
def validateInputList : List AgentInputE → Except String Unit
  | [] => .ok ()
  | inp :: rest =>
    if inp.input_type = "" then .error "Input type is required"
    else if inp.data.isNone then .error "Input data is required"
    else validateInputList rest

/-- `BaseAgent._validate_inputs`: an empty list raises, then each input
is checked in order. -/
def validateInputs (inputs : List AgentInputE) : Except String Unit :=
  if inputs.isEmpty then .error "No inputs provided" else validateInputList inputs

/-- The response envelope `BaseAgent.execute` returns. -/
structure ExecResultE where
  status : String
  output : Option AgentOutputE
  error : Option String
  execution_time_ms : ℚ
deriving DecidableEq, Repr

/-- `BaseAgent.execute`: acquire the semaphore, bump `current_tasks`,
validate, run the concrete `process` implementation (supplied as a
parameter, since subclasses are out of scope), convert success or any
exception into the response envelope, and release in `finally`.
`duration` is the measured wall-clock time.  Nothing in the body reads
the `healthy` flag. -/
def executeB (process : List AgentInputE → List (String × String) → Except String AgentOutputE)
    (a : BAgentState) (inputs : List AgentInputE)
    (parameters : List (String × String)) (duration : ℚ) :
    BAgentState × ExecResultE :=
  let a1 := { a with current_tasks := a.current_tasks + 1 }
  match validateInputs inputs with
  | .error msg =>
    ({ a1 with total_failed := a1.total_failed + 1, current_tasks := a1.current_tasks - 1 },
     { status := "failed", output := none, error := some msg, execution_time_ms := duration })
  | .ok _ =>
    match process inputs parameters with
    | .ok out =>
      ({ a1 with total_completed := a1.total_completed + 1, current_tasks := a1.current_tasks - 1 },
       { status := "completed", output := some out, error := none, execution_time_ms := duration })
    | .error msg =>
      ({ a1 with total_failed := a1.total_failed + 1, current_tasks := a1.current_tasks - 1 },
       { status := "failed", output := none, error := some msg, execution_time_ms := duration })

/-- The first action of `BaseAgent.shutdown`: set `healthy = False`.
The subsequent drain loop only polls `current_tasks` and changes no
state. -/
def shutdownMark (a : BAgentState) : BAgentState := { a with healthy := false }

/-! ### Metrics collector (`src/monitoring/metrics.py`) -/

/-- The dictionary `get_histogram_stats` returns.  Sample values are
embedded as rationals. -/
structure HistStats where
  count : Nat
  mean : ℚ
  p50 : ℚ
  p95 : ℚ
  p99 : ℚ
  minV : ℚ
  maxV : ℚ
deriving DecidableEq, Repr

/-- `MetricsCollector._percentile` over exact arithmetic:
`int((percentile / 100.0) * len(sorted_values))`, clamped to the last
index. -/
def percentileOf (sorted_values : List ℚ) (percentile : Nat) : ℚ :=
  if sorted_values.isEmpty then 0
  else
    let index := Nat.min (percentile * sorted_values.length / 100)
      (sorted_values.length - 1)
    sorted_values.getD index 0

/-- The ascending sort `get_histogram_stats` performs on the recorded
sample values. -/
def sortedSamples (samples : List ℚ) : List ℚ :=
  List.insertionSort (fun a b => a ≤ b) samples

/-- `MetricsCollector.get_histogram_stats` on the current sample buffer:
count, arithmetic mean, percentiles via `_percentile`, and the first and
last element of the sorted values. -/
def getHistogramStats (samples : List ℚ) : HistStats :=
  if samples.isEmpty then
    { count := 0, mean := 0, p50 := 0, p95 := 0, p99 := 0, minV := 0, maxV := 0 }
  else
    let values := sortedSamples samples
    let count := values.length
    { count := count,
      mean := values.sum / (count : ℚ),
      p50 := percentileOf values 50,
      p95 := percentileOf values 95,
      p99 := percentileOf values 99,
      minV := values.getD 0 0,
      maxV := values.getD (count - 1) 0 }

/-- Modelled from the spec: the nearest-rank percentile — the value at
1-based rank `ceil(p/100 * n)` of the sorted sample list.  This is the
reading of "p50, p95, p99 using nearest-rank on sorted snapshots" the
histogram claim asserts, stated here only for comparison with the
code's `_percentile`. -/
def nearestRankSpec (samples : List ℚ) (percentile : Nat) : ℚ :=
  let sorted := sortedSamples samples
  sorted.getD ((percentile * sorted.length + 99) / 100 - 1) 0


/-! ### Concrete fixtures used by the claim theorems and witnesses -/

/-- An empty store. -/
def emptyStore : Store :=
  { tasks := [], queues := [], agents := [], typeIndex := [] }

/-- A task record with the given id, type, status, priority and retry
count (remaining fields at their defaults). -/
def mkTask (id ttype : String) (st : TaskStatus) (pri retry : Int) :
    TaskState :=
  { task_id := id, status := st, task_type := ttype, created_at := 0,
    updated_at := 0, agent_executions := [],
    metadata := { inputs := [], parameters := [], execution_mode := none },
    output := none, error := none, retry_count := retry, priority := pri }

/-- An agent record with the given id, capability, capacity, load,
health and heartbeat. -/
def mkAgent (id ty : String) (maxT cur : Int) (h : Bool) (hb : ℚ) :
    AgentInfo :=
  { agent_id := id, agent_type := ty, endpoint := "grpc://" ++ id,
    capabilities := [ty], max_concurrent_tasks := maxT,
    current_tasks := cur, healthy := h, last_heartbeat := hb }

/-- First stage of the two-stage parallel plan. -/
def stagePlanA : StagePlan :=
  { agent_id := "agent-1", agent_type := "data_ingest",
    endpoint := "grpc://agent-1", inputs := [], parameters := [] }

/-- Second stage of the two-stage parallel plan. -/
def stagePlanB : StagePlan :=
  { agent_id := "agent-2", agent_type := "data_analysis",
    endpoint := "grpc://agent-2", inputs := [], parameters := [] }

/-- A non-empty (truthy) worker output envelope. -/
def outEnvelope : AgentOut := [("type", "generic"), ("data", "ok")]

/-- A store holding the running task and the two agents of the parallel
scenario. -/
def engineStore : Store :=
  { tasks := [("t1", mkTask "t1" "report_generation" .running 5 0)],
    queues := [],
    agents := [("agent-1", mkAgent "agent-1" "data_ingest" 10 0 true 0),
               ("agent-2", mkAgent "agent-2" "data_analysis" 10 0 true 0)],
    typeIndex := [("data_ingest", ["agent-1"]),
                  ("data_analysis", ["agent-2"])] }

/-- A store whose single task is already in the terminal COMPLETED
state. -/
def storeTerminal : Store :=
  { tasks := [("t", mkTask "t" "data_analysis" .completed 5 0)],
    queues := [], agents := [], typeIndex := [] }

/-- A queued task whose type has no workflow entry, first attempt. -/
def storeUnknownType : Store :=
  { tasks := [("t0", mkTask "t0" "bogus_type" .queued 5 0)],
    queues := [], agents := [], typeIndex := [] }

/-- A queued task whose type has no workflow entry, retries exhausted. -/
def storeUnknownTypeExhausted : Store :=
  { tasks := [("t0", mkTask "t0" "bogus_type" .queued 5 3)],
    queues := [], agents := [], typeIndex := [] }

/-- An engine oracle for paths that never reach the engine call. -/
def engineUnused : EngineCall := fun _ _ => .error "engine not reached"

/-- A balancer in its default configuration (LEAST_LOADED, no
round-robin counters). -/
def lbDefault : LBState :=
  { strategy := .least_loaded, round_robin_counters := [] }

/-- Three tasks of one type created with priorities 9, 1 and 5. -/
def drainStore : Store :=
  (createTask
    (createTask
      (createTask emptyStore (mkTask "job-a" "data_analysis" .queued 9 0)).2
      (mkTask "job-b" "data_analysis" .queued 1 0)).2
    (mkTask "job-c" "data_analysis" .queued 5 0)).2

/-- Two tasks of equal priority: `"tb"` created first, `"ta"` second. -/
def tieStore : Store :=
  (createTask
    (createTask emptyStore (mkTask "tb" "data_analysis" .queued 5 0)).2
    (mkTask "ta" "data_analysis" .queued 5 0)).2

/-- A store whose single agent is exactly at capacity. -/
def storeSaturated : Store :=
  { tasks := [], queues := [],
    agents := [("a1", mkAgent "a1" "data_analysis" 2 2 true 0)],
    typeIndex := [("data_analysis", ["a1"])] }

/-- A store with one healthy, fresh, unsaturated agent. -/
def storeFresh : Store :=
  { tasks := [], queues := [],
    agents := [("w1", mkAgent "w1" "data_analysis" 5 0 true 0)],
    typeIndex := [("data_analysis", ["w1"])] }

/-- A store whose single agent is healthy but has a 100-second-old
heartbeat. -/
def storeStaleHb : Store :=
  { tasks := [], queues := [],
    agents := [("w1", mkAgent "w1" "data_analysis" 5 0 true 0)],
    typeIndex := [("data_analysis", ["w1"])] }

/-- An idle worker. -/
def workerIdle : BAgentState :=
  { agent_id := "w1", agent_type := "transcript_summary",
    max_concurrent_tasks := 10, current_tasks := 0, total_completed := 0,
    total_failed := 0, healthy := true }

/-- A `process` implementation that succeeds. -/
def procOk : List AgentInputE → List (String × String) → Except String AgentOutputE :=
  fun _ _ => .ok { output_type := "text", data := "out", metadata := [] }

/-- A valid worker input. -/
def inputOk : AgentInputE :=
  { input_id := "i1", input_type := "text", data := some "hello" }

/-- A backend every primitive of which raises. -/
def downBackend : FallibleBackend :=
  { pipe_create := fun _ => .error "connection refused",
    get_task_raw := fun _ => .error "connection refused",
    set_task_raw := fun _ _ => .error "connection refused",
    publish := fun _ _ => .error "connection refused",
    zpopmin_raw := fun _ => .error "connection refused",
    zcard_raw := fun _ => .error "connection refused",
    smembers := fun _ => .error "connection refused",
    get_agent_raw := fun _ => .error "connection refused" }

/-- A per-stage record fixture. -/
def recW : AgentExecRecord :=
  { agent_id := "a", agent_type := "t", status := "completed",
    execution_time_ms := 1, error := none }

/-! ## Helper lemmas -/

theorem assocSet_lookup_same {α : Type} (l : List (String × α)) (k : String)
    (v : α) : (assocSet l k v).lookup k = some v := by
  simp [assocSet, List.lookup]

theorem lookup_filter_ne {α : Type} (l : List (String × α)) (k k2 : String)
    (h : k2 ≠ k) :
    (l.filter (fun e => !(e.1 == k))).lookup k2 = l.lookup k2 := by
  induction l with
  | nil => rfl
  | cons e rest ih =>
    by_cases he : e.1 = k
    · have hkk : (k2 == k) = false := by simpa using h
      simp [List.filter, he, List.lookup, hkk, ih]
    · simp only [List.filter]
      have hne : (e.1 == k) = false := by simpa using he
      simp only [hne, Bool.not_false, List.lookup, ih]

theorem assocSet_lookup_ne {α : Type} (l : List (String × α)) (k k2 : String)
    (v : α) (h : k2 ≠ k) :
    (assocSet l k v).lookup k2 = l.lookup k2 := by
  have hne : (k2 == k) = false := by simpa using h
  simp [assocSet, List.lookup, hne, lookup_filter_ne l k k2 h]

theorem charListLt_cons_iff (a b : Char) (as bs : List Char) :
    charListLt (a :: as) (b :: bs) = true ↔
      a.toNat < b.toNat ∨ (a.toNat = b.toNat ∧ charListLt as bs = true) := by
  by_cases h1 : a.toNat < b.toNat
  · simp [charListLt, h1]
  · by_cases h2 : b.toNat < a.toNat
    · simp only [charListLt, if_neg h1, if_pos h2]
      constructor
      · intro hx
        exact absurd hx (by simp)
      · intro hx
        rcases hx with hx | ⟨hx, _⟩
        · exact absurd hx h1
        · exact absurd hx (by omega)
    · have heq : a.toNat = b.toNat := by omega
      simp [charListLt, if_neg h1, if_neg h2, heq]

theorem charListLt_irrefl (l : List Char) : charListLt l l = false := by
  induction l with
  | nil => rfl
  | cons a as ih => simp [charListLt, ih]

theorem charListLt_trans {a b c : List Char} (h1 : charListLt a b = true)
    (h2 : charListLt b c = true) : charListLt a c = true := by
  induction a generalizing b c with
  | nil =>
    cases b with
    | nil => simp [charListLt] at h1
    | cons b0 bs =>
      cases c with
      | nil => simp [charListLt] at h2
      | cons c0 cs => rfl
  | cons a0 as ih =>
    cases b with
    | nil => simp [charListLt] at h1
    | cons b0 bs =>
      cases c with
      | nil => simp [charListLt] at h2
      | cons c0 cs =>
        rw [charListLt_cons_iff] at h1 h2 ⊢
        rcases h1 with h1 | ⟨h1e, h1t⟩
        · rcases h2 with h2 | ⟨h2e, _⟩
          · exact Or.inl (by omega)
          · exact Or.inl (by omega)
        · rcases h2 with h2 | ⟨h2e, h2t⟩
          · exact Or.inl (by omega)
          · exact Or.inr ⟨by omega, ih h1t h2t⟩

theorem charListLt_trans_neg {a b c : List Char} (h1 : charListLt a b = false)
    (h2 : charListLt a c = true) : charListLt b c = true := by
  induction a generalizing b c with
  | nil =>
    cases b with
    | nil => exact h2
    | cons b0 bs => simp [charListLt] at h1
  | cons a0 as ih =>
    cases c with
    | nil => simp [charListLt] at h2
    | cons c0 cs =>
      cases b with
      | nil => rfl
      | cons b0 bs =>
        rw [charListLt_cons_iff] at h2 ⊢
        have h1' : ¬ (a0.toNat < b0.toNat ∨ (a0.toNat = b0.toNat ∧ charListLt as bs = true)) := by
          rw [← charListLt_cons_iff]
          simp [h1]
        push_neg at h1'
        rcases h2 with h2 | ⟨h2e, h2t⟩
        · rcases h1' with ⟨hle, _⟩
          exact Or.inl (by omega)
        · rcases h1' with ⟨hle, himp⟩
          by_cases hb : b0.toNat < c0.toNat
          · exact Or.inl hb
          · have hbe : b0.toNat = c0.toNat := by omega
            have habe : a0.toNat = b0.toNat := by omega
            have hbs : charListLt as bs = false := by
              have := himp habe
              simpa using this
            exact Or.inr ⟨hbe, ih hbs h2t⟩

theorem zentryLt_irrefl (a : ZEntry) : zentryLt a a = false := by
  simp [zentryLt, strLt, charListLt_irrefl]

theorem zentryLt_iff (a b : ZEntry) :
    zentryLt a b = true ↔ a.2 < b.2 ∨ (a.2 = b.2 ∧ strLt a.1 b.1 = true) := by
  simp [zentryLt]

theorem zentryLt_trans {a b c : ZEntry} (h1 : zentryLt a b = true)
    (h2 : zentryLt b c = true) : zentryLt a c = true := by
  rw [zentryLt_iff] at h1 h2 ⊢
  rcases h1 with h1 | ⟨h1e, h1s⟩
  · rcases h2 with h2 | ⟨h2e, _⟩
    · exact Or.inl (by omega)
    · exact Or.inl (by omega)
  · rcases h2 with h2 | ⟨h2e, h2s⟩
    · exact Or.inl (by omega)
    · exact Or.inr ⟨by omega, charListLt_trans h1s h2s⟩

theorem zentryLt_trans_neg {a b c : ZEntry} (h1 : zentryLt a b = false)
    (h2 : zentryLt a c = true) : zentryLt b c = true := by
  have h1' : ¬ (a.2 < b.2 ∨ (a.2 = b.2 ∧ strLt a.1 b.1 = true)) := by
    rw [← zentryLt_iff]
    simp [h1]
  push_neg at h1'
  rw [zentryLt_iff] at h2 ⊢
  rcases h1' with ⟨hle, himp⟩
  rcases h2 with h2 | ⟨h2e, h2s⟩
  · exact Or.inl (by omega)
  · by_cases hb : b.2 < c.2
    · exact Or.inl hb
    · have hbe : b.2 = c.2 := by omega
      have habe : a.2 = b.2 := by omega
      have hbs : strLt a.1 b.1 = false := by
        have := himp habe
        simpa using this
      exact Or.inr ⟨hbe, charListLt_trans_neg hbs h2s⟩

theorem zminEntry_mem (x : ZEntry) (xs : List ZEntry) :
    zminEntry x xs ∈ x :: xs := by
  induction xs generalizing x with
  | nil => simp [zminEntry]
  | cons y ys ih =>
    simp only [zminEntry]
    by_cases h : zentryLt y x = true
    · have h2 := ih y
      simp only [h, if_true]
      simp only [List.mem_cons] at h2 ⊢
      tauto
    · have hf : zentryLt y x = false := by simpa using h
      have h2 := ih x
      simp only [hf, Bool.false_eq_true, if_false]
      simp only [List.mem_cons] at h2 ⊢
      tauto

theorem zminEntry_min (x : ZEntry) (xs : List ZEntry) :
    ∀ y ∈ x :: xs, zentryLt y (zminEntry x xs) = false := by
  induction xs generalizing x with
  | nil =>
    intro y hy
    simp only [List.mem_cons, List.not_mem_nil, or_false] at hy
    subst hy
    simp [zminEntry, zentryLt_irrefl]
  | cons z zs ih =>
    intro y hy
    simp only [zminEntry]
    by_cases hzx : zentryLt z x = true
    · simp only [hzx, if_true]
      rcases List.mem_cons.1 hy with rfl | hy2
      · by_contra hxm
        have hxm' : zentryLt y (zminEntry z zs) = true := by
          simpa using hxm
        have : zentryLt z (zminEntry z zs) = true := zentryLt_trans hzx hxm'
        have hmin := ih z z (List.mem_cons_self z zs)
        rw [hmin] at this
        exact absurd this (by simp)
      · exact ih z y hy2
    · have hzxf : zentryLt z x = false := by simpa using hzx
      simp only [hzxf, Bool.false_eq_true, if_false]
      rcases List.mem_cons.1 hy with rfl | hy2
      · exact ih y y (List.mem_cons_self y zs)
      · rcases List.mem_cons.1 hy2 with rfl | hy3
        · by_contra hzm
          have hzm' : zentryLt y (zminEntry x zs) = true := by
            simpa using hzm
          have hxm : zentryLt x (zminEntry x zs) = true :=
            zentryLt_trans_neg hzxf hzm'
          have hmin := ih x x (List.mem_cons_self x zs)
          rw [hmin] at hxm
          exact absurd hxm (by simp)
        · exact ih x y (List.mem_cons_of_mem x hy3)

theorem mem_of_head_some {α : Type} {l : List α} {a : α}
    (h : l.head? = some a) : a ∈ l := by
  cases l with
  | nil => simp at h
  | cons x xs =>
    simp only [List.head?] at h
    injection h with h
    subst h
    exact List.mem_cons_self x xs

theorem pickMaxScore_mem {l : List (ℚ × AgentInfo)} {y : ℚ × AgentInfo}
    (h : pickMaxScore l = some y) : y ∈ l := by
  induction l with
  | nil => simp [pickMaxScore] at h
  | cons x xs ih =>
    simp only [pickMaxScore] at h
    cases hr : pickMaxScore xs with
    | none =>
      rw [hr] at h
      injection h with h
      subst h
      exact List.mem_cons_self x xs
    | some z =>
      rw [hr] at h
      have h2 : (if decide (x.1 < z.1) = true then some z else some x) = some y := h
      by_cases hc : x.1 < z.1
      · rw [if_pos (by simpa using hc)] at h2
        injection h2 with h2
        subst h2
        exact List.mem_cons_of_mem x (ih hr)
      · rw [if_neg (by simpa using hc)] at h2
        injection h2 with h2
        subst h2
        exact List.mem_cons_self x xs

theorem mem_getAgentsByType {s : Store} {agent_type : String} {a : AgentInfo}
    (h : a ∈ getAgentsByType s agent_type) :
    a ∈ agentRecordsOfType s agent_type ∧ a.healthy = true := by
  simp only [getAgentsByType] at h
  rcases List.mem_filterMap.1 h with ⟨id, hid, hres⟩
  cases hg : getAgent s id with
  | none => rw [hg] at hres; simp at hres
  | some a2 =>
    rw [hg] at hres
    have hres2 : (if a2.healthy = true then some a2 else none) = some a := hres
    by_cases hh : a2.healthy = true
    · rw [if_pos hh] at hres2
      injection hres2 with hres2
      subst hres2
      refine ⟨List.mem_filterMap.2 ⟨id, hid, hg⟩, hh⟩
    · rw [if_neg hh] at hres2
      simp at hres2

theorem sorted_head_le {l : List ℚ} (hs : List.Sorted (· ≤ ·) l)
    (hne : l ≠ []) : ∀ x ∈ l, l.getD 0 0 ≤ x := by
  cases l with
  | nil => exact absurd rfl hne
  | cons a rest =>
    intro x hx
    rcases List.sorted_cons.1 hs with ⟨hall, _⟩
    rcases List.mem_cons.1 hx with rfl | hx2
    · simp [List.getD]
    · simpa [List.getD] using hall x hx2

theorem sorted_le_getLast :
    ∀ (l : List ℚ), List.Sorted (· ≤ ·) l → ∀ (hne : l ≠ []),
      ∀ x ∈ l, x ≤ l.getLast hne := by
  intro l
  induction l with
  | nil =>
    intro _ hne
    exact absurd rfl hne
  | cons a rest ih =>
    intro hs hne x hx
    rcases List.sorted_cons.1 hs with ⟨hall, hrest⟩
    cases rest with
    | nil =>
      rcases List.mem_cons.1 hx with rfl | hx2
      · simp [List.getLast]
      · simp at hx2
    | cons b bs =>
      have hrne : (b :: bs) ≠ [] := by simp
      have hlast : (a :: b :: bs).getLast hne = (b :: bs).getLast hrne := rfl
      rw [hlast]
      rcases List.mem_cons.1 hx with rfl | hx2
      · exact hall _ (List.getLast_mem hrne)
      · exact ih hrest hrne x hx2

theorem getD_last_eq_getLast {l : List ℚ} (hne : l ≠ []) :
    l.getD (l.length - 1) 0 = l.getLast hne := by
  have hlen : l.length - 1 < l.length := by
    cases l with
    | nil => exact absurd rfl hne
    | cons a rest => simp
  rw [List.getD_eq_getElem l 0 hlen, List.getLast_eq_getElem]

theorem ceil_pred_eq_floor {m : Nat} (h : ¬ (100 ∣ m)) :
    (m + 99) / 100 - 1 = m / 100 := by omega

theorem pn_div_lt {p n : Nat} (hp : p < 100) (hn : 0 < n) :
    p * n / 100 < n := by
  rw [Nat.div_lt_iff_lt_mul (by norm_num)]
  have h1 : p * n < 100 * n := by
    exact Nat.mul_lt_mul_of_lt_of_le hp (le_refl n) hn
  omega

theorem sortedSamples_perm (samples : List ℚ) :
    (sortedSamples samples).Perm samples :=
  List.perm_insertionSort _ samples

theorem sortedSamples_sorted (samples : List ℚ) :
    List.Sorted (· ≤ ·) (sortedSamples samples) :=
  List.sorted_insertionSort _ samples

theorem percentileOf_eq_nearestRank {samples : List ℚ} {p : Nat}
    (hp : p < 100) (hne : samples ≠ [])
    (hnd : ¬ (100 ∣ p * samples.length)) :
    percentileOf (sortedSamples samples) p = nearestRankSpec samples p := by
  have hlen : (sortedSamples samples).length = samples.length :=
    (sortedSamples_perm samples).length_eq
  have hvne : ¬ (sortedSamples samples).isEmpty := by
    rw [List.isEmpty_iff]
    intro hc
    have := hlen
    rw [hc] at this
    exact hne (List.eq_nil_of_length_eq_zero this.symm)
  have hn : 0 < samples.length := by
    cases samples with
    | nil => exact absurd rfl hne
    | cons a rest => simp
  have hidx : p * samples.length / 100 < samples.length := pn_div_lt hp hn
  have hmin : Nat.min (p * (sortedSamples samples).length / 100)
      ((sortedSamples samples).length - 1) = p * samples.length / 100 := by
    rw [hlen]
    exact Nat.min_eq_left (by omega)
  have hceil : p * (sortedSamples samples).length / 100 =
      (p * (sortedSamples samples).length + 99) / 100 - 1 := by
    rw [hlen]
    omega
  simp only [percentileOf, hvne, Bool.false_eq_true, if_false, nearestRankSpec, hmin]
  rw [← hceil, hlen]

/-! ## Claim theorems -/

/-- Claim C1: evaluation of `execute_parallel` at a two-stage plan where
the first stage's worker call fails.  `_execute_agent_task` converts the
exception into a `status = "failed"` result instead of letting it
escape, so the result-processing loop sees no `Exception` instance and
counts the failed stage among the successes: the aggregate reports
`successful_agents = 2`, `failed_agents = 0`, and a results list of
length 1 — not `successful_agents = 1`, `failed_agents = 1`.  With both
stages failing the call still does not raise and reports
`successful_agents = 2` with an empty results list. -/
theorem execute_parallel_miscounts_failed_stage :
    ((executeParallel engineStore "t1" [stagePlanA, stagePlanB]
        [⟨1, .error "RuntimeError: worker failed"⟩, ⟨1, .ok outEnvelope⟩] 0 2).2.toOption.map
        (fun r => (r.successful_agents, r.failed_agents, r.results.length))
      = some (2, 0, 1))
    ∧ ((executeParallel engineStore "t1" [stagePlanA, stagePlanB]
        [⟨1, .error "boom1"⟩, ⟨1, .error "boom2"⟩] 0 2).2.toOption.map
        (fun r => (r.successful_agents, r.failed_agents, r.results)) = some (2, 0, [])) := by
  decide

/-- Claim C4: the configured per-stage timeout is never applied.
`grpc_timeout` is set to 30 seconds in `ExecutionEngine.__init__` and
then never read: a stage whose worker call takes 1000 seconds (far past
the deadline) still completes with `status = "completed"` and its full
duration as `execution_time_ms`, and a failing call produces only the
propagated exception text — no `TIMEOUT` error kind exists anywhere in
the engine. -/
theorem stage_dispatch_never_times_out :
    (executeAgentTask engineStore ⟨1000, .ok outEnvelope⟩ stagePlanA).2.status = "completed"
    ∧ (executeAgentTask engineStore ⟨1000, .ok outEnvelope⟩ stagePlanA).2.execution_time_ms
        = 1000000
    ∧ grpcTimeout = 30 ∧ (1000 : ℚ) > grpcTimeout
    ∧ (executeAgentTask engineStore ⟨1000, .error "connection reset"⟩ stagePlanA).2.error
        = some "connection reset" := by
  refine ⟨by decide, ?_, by decide, by decide, by decide⟩
  show (1000 : ℚ) * 1000 = 1000000
  norm_num

/-- Claim C2 (counterexample): a task already in the terminal COMPLETED
state is moved to RUNNING by a later `update_task_status` call — the
store enforces no terminal-state guard, so terminal states are not
absorbing. -/
theorem terminal_status_overwritten :
    ((getTask storeTerminal "t").map (fun t => t.status) = some .completed)
    ∧ ((getTask (updateTaskStatus storeTerminal "t" .running none none 1).2 "t").map
        (fun t => t.status) = some .running) := by
  decide

/-- Claim C2 (amended): `update_task_status` overwrites the stored
status unconditionally — whenever the task exists (terminal or not), the
call returns `True` and the stored record afterwards carries exactly the
requested status; terminal-state stickiness is not enforced by the state
store. -/
theorem update_task_status_overwrites (s : Store) (id : String)
    (st : TaskStatus) (err : Option ErrEnvelope) (out : Option String)
    (now : ℚ) (t : TaskState) (h : getTask s id = some t) :
    (updateTaskStatus s id st err out now).1 = true
    ∧ getTask (updateTaskStatus s id st err out now).2 id
        = some (updatedRecord t st err out now)
    ∧ (updatedRecord t st err out now).status = st := by
  have h2 : List.lookup id s.tasks = some t := h
  simp only [updateTaskStatus, getTask, h2]
  refine ⟨?_, ?_, ?_⟩
  · trivial
  · exact assocSet_lookup_same ..
  · trivial

/-- Claim C2 (witness): the amended statement applied to the COMPLETED
task of `storeTerminal`. -/
theorem update_task_status_overwrites_witness :
    getTask storeTerminal "t" = some (mkTask "t" "data_analysis" .completed 5 0)
    ∧ (updatedRecord (mkTask "t" "data_analysis" .completed 5 0) .running none none 1).status
        = .running
    ∧ getTask (updateTaskStatus storeTerminal "t" .running none none 1).2 "t"
        = some (updatedRecord (mkTask "t" "data_analysis" .completed 5 0) .running none none 1) := by
  have h := update_task_status_overwrites storeTerminal "t" .running none none 1
    (mkTask "t" "data_analysis" .completed 5 0) (by decide)
  exact ⟨by decide, h.2.2, h.2.1⟩

/-- Claim C6 (counterexample): an agent at capacity
(`current_tasks = max_concurrent_tasks = 2`) is pushed to
`current_tasks = 3` by `increment_agent_tasks(+1)` — the stored value
exceeds `max_concurrent_tasks`, so the claimed upper clamp does not
exist. -/
theorem increment_agent_tasks_exceeds_max :
    ((getAgent (incrementAgentTasks storeSaturated "a1" 1).2 "a1").map
      (fun a => a.current_tasks) = some 3)
    ∧ ((getAgent storeSaturated "a1").map (fun a => a.max_concurrent_tasks) = some 2)
    ∧ ¬ ((3 : Int) ≤ 2) := by
  decide

/-- Claim C6 (amended): `increment_agent_tasks` clamps only below: for
an existing agent the stored count becomes
`max(0, current_tasks + increment)`, which is always non-negative but is
not bounded by `max_concurrent_tasks`. -/
theorem increment_agent_tasks_clamps_below (s : Store) (id : String)
    (inc : Int) (a : AgentInfo) (h : getAgent s id = some a) :
    getAgent (incrementAgentTasks s id inc).2 id
      = some { a with current_tasks := max 0 (a.current_tasks + inc) }
    ∧ (0 : Int) ≤ max 0 (a.current_tasks + inc) := by
  simp only [incrementAgentTasks, h]
  exact ⟨assocSet_lookup_same .., le_max_left 0 _⟩

/-- Claim C6 (witness): the amended statement applied to the saturated
agent of `storeSaturated` with increment `+1`. -/
theorem increment_agent_tasks_clamps_below_witness :
    getAgent (incrementAgentTasks storeSaturated "a1" 1).2 "a1"
      = some { mkAgent "a1" "data_analysis" 2 2 true 0 with current_tasks := max 0 (2 + 1) }
    ∧ (0 : Int) ≤ max 0 (2 + 1) := by
  have h := increment_agent_tasks_clamps_below storeSaturated "a1" 1
    (mkAgent "a1" "data_analysis" 2 2 true 0) (by decide)
  exact h

/-- Claim C8 (counterexample): after `shutdown` has set `healthy` to
false, a further `execute` call is still admitted and fully processed —
the framework performs no health check on admission, so the result is
`status = "completed"` and the completion counter advances. -/
theorem execute_admitted_after_shutdown :
    (shutdownMark workerIdle).healthy = false
    ∧ (executeB procOk (shutdownMark workerIdle) [inputOk] [] 1).2.status = "completed"
    ∧ (executeB procOk (shutdownMark workerIdle) [inputOk] [] 1).1.total_completed
        = workerIdle.total_completed + 1 := by
  decide

/-- Claim C8 (amended): `BaseAgent.execute` never reads the `healthy`
flag: running it on an agent whose flag has been forced to any value
(in particular `false` by `shutdown`) yields exactly the result and
state update of the original agent, with only the flag carried through
— so no task is rejected after shutdown; exclusion of a drained worker
comes only from external selection, not from the framework. -/
theorem execute_ignores_healthy
    (process : List AgentInputE → List (String × String) → Except String AgentOutputE)
    (a : BAgentState) (inputs : List AgentInputE)
    (parameters : List (String × String)) (duration : ℚ) (b : Bool) :
    executeB process { a with healthy := b } inputs parameters duration
      = ({ (executeB process a inputs parameters duration).1 with healthy := b },
         (executeB process a inputs parameters duration).2) := by
  simp only [executeB]
  cases hv : validateInputs inputs with
  | error msg => rfl
  | ok u =>
    cases hp : process inputs parameters with
    | ok out => rfl
    | error msg => rfl

/-- Claim C10: every public `RedisStateManager` operation catches
backend exceptions and returns its designated failure value instead of
propagating — `False` for the writes (`create_task`,
`update_task_status` at each of its three raise points,
`add_agent_execution` at each of its two), `None` for `get_task`,
`get_agent` and `get_next_task`, the empty list for
`get_agents_by_type`, and `0` for `get_queue_length`. -/
theorem redis_ops_catch_backend_errors (b : FallibleBackend) :
    (∀ t e, b.pipe_create t = .error e → createTaskF b t = false)
    ∧ (∀ id e, b.get_task_raw ("task:" ++ id) = .error e → getTaskF b id = none)
    ∧ (∀ id st err out now e, b.get_task_raw ("task:" ++ id) = .error e →
        updateTaskStatusF b id st err out now = false)
    ∧ (∀ id st err out now t e, getTaskF b id = some t →
        b.set_task_raw ("task:" ++ id) (updatedRecord t st err out now) = .error e →
        updateTaskStatusF b id st err out now = false)
    ∧ (∀ id st err out now t e, getTaskF b id = some t →
        b.set_task_raw ("task:" ++ id) (updatedRecord t st err out now) = .ok () →
        b.publish ("task_updates:" ++ id) "status" = .error e →
        updateTaskStatusF b id st err out now = false)
    ∧ (∀ id rec now e, b.get_task_raw ("task:" ++ id) = .error e →
        addAgentExecutionF b id rec now = false)
    ∧ (∀ id rec now t e, getTaskF b id = some t →
        b.set_task_raw ("task:" ++ id)
          { t with agent_executions := t.agent_executions ++ [rec], updated_at := now }
          = .error e →
        addAgentExecutionF b id rec now = false)
    ∧ (∀ tt e, b.zpopmin_raw ("queue:" ++ tt) = .error e → getNextTaskF b tt = none)
    ∧ (∀ tt e, b.zcard_raw ("queue:" ++ tt) = .error e → getQueueLengthF b tt = 0)
    ∧ (∀ ty e, b.smembers ("agent:type:" ++ ty) = .error e → getAgentsByTypeF b ty = [])
    ∧ (∀ id e, b.get_agent_raw ("agent:" ++ id) = .error e → getAgentF b id = none) := by
  refine ⟨?_, ?_, ?_, ?_, ?_, ?_, ?_, ?_, ?_, ?_, ?_⟩
  · intro t e h
    simp [createTaskF, h]
  · intro id e h
    simp [getTaskF, h]
  · intro id st err out now e h
    simp [updateTaskStatusF, getTaskF, h]
  · intro id st err out now t e hget hset
    simp [updateTaskStatusF, hget, hset]
  · intro id st err out now t e hget hset hpub
    simp [updateTaskStatusF, hget, hset, hpub]
  · intro id rec now e h
    simp [addAgentExecutionF, getTaskF, h]
  · intro id rec now t e hget hset
    simp [addAgentExecutionF, hget, hset]
  · intro tt e h
    simp [getNextTaskF, h]
  · intro tt e h
    simp [getQueueLengthF, h]
  · intro ty e h
    simp [getAgentsByTypeF, h]
  · intro id e h
    simp [getAgentF, h]

/-- Claim C10 (witness): every operation applied to a backend whose
primitives all raise returns its designated failure value. -/
theorem redis_ops_catch_backend_errors_witness :
    createTaskF downBackend (mkTask "tw" "data_analysis" .queued 5 0) = false
    ∧ getTaskF downBackend "tw" = none
    ∧ updateTaskStatusF downBackend "tw" .completed none none 0 = false
    ∧ addAgentExecutionF downBackend "tw" recW 0 = false
    ∧ getNextTaskF downBackend "data_analysis" = none
    ∧ getQueueLengthF downBackend "data_analysis" = 0
    ∧ getAgentsByTypeF downBackend "data_analysis" = []
    ∧ getAgentF downBackend "w" = none := by
  have h := redis_ops_catch_backend_errors downBackend
  refine ⟨h.1 _ "connection refused" rfl,
          h.2.1 "tw" "connection refused" rfl,
          h.2.2.1 "tw" .completed none none 0 "connection refused" rfl,
          h.2.2.2.2.2.1 "tw" recW 0 "connection refused" rfl,
          h.2.2.2.2.2.2.2.1 "data_analysis" "connection refused" rfl,
          h.2.2.2.2.2.2.2.2.1 "data_analysis" "connection refused" rfl,
          h.2.2.2.2.2.2.2.2.2.1 "data_analysis" "connection refused" rfl,
          h.2.2.2.2.2.2.2.2.2.2 "w" "connection refused" rfl⟩

/-- Claim C3 (counterexample): executing a queued task whose type has no
workflow entry does not fail immediately.  After one `_execute_task`
pass the stored record has status QUEUED (re-written from the stale
local snapshot by the re-queue), `retry_count = 1`, no error envelope at
all (in particular no `UNKNOWN_TASK_TYPE`), and the task id is back in
its priority queue. -/
theorem unknown_task_type_not_failed_immediately :
    ((getTask (executeTask engineUnused storeUnknownType lbDefault 0 7 "t0") "t0").map
      (fun t => t.status) = some .queued)
    ∧ ((getTask (executeTask engineUnused storeUnknownType lbDefault 0 7 "t0") "t0").map
      (fun t => t.retry_count) = some 1)
    ∧ ((getTask (executeTask engineUnused storeUnknownType lbDefault 0 7 "t0") "t0").map
      (fun t => t.error) = some none)
    ∧ ((queueOf (executeTask engineUnused storeUnknownType lbDefault 0 7 "t0") "bogus_type").map
      (fun e => e.1) = ["t0"]) := by
  decide

/-- Claim C3 (amended): an unknown task type raises a generic
`ValueError` that is handled by the same path as every other execution
failure.  While the snapshot's `retry_count` is below 3 the task is
marked RETRYING and then re-created from the snapshot — re-enqueued
with `retry_count + 1` — instead of failing; only with retries
exhausted is it marked FAILED, and then with the generic code
`EXECUTION_FAILED`, not `UNKNOWN_TASK_TYPE`. -/
theorem unknown_task_type_retried_then_generic_failure
    (engine : EngineCall) (s : Store) (lb : LBState) (rand : Nat) (now : ℚ)
    (t : TaskState) (h : getTask s t.task_id = some t)
    (hu : taskAgentMapping t.task_type = []) :
    (t.retry_count < 3 →
      getTask (executeTask engine s lb rand now t.task_id) t.task_id
        = some { t with retry_count := t.retry_count + 1 }
      ∧ (t.task_id, t.priority) ∈
          queueOf (executeTask engine s lb rand now t.task_id) t.task_type)
    ∧ (¬ t.retry_count < 3 →
      ∃ t2, getTask (executeTask engine s lb rand now t.task_id) t.task_id = some t2
        ∧ t2.status = .failed
        ∧ t2.error = some { message := "Unknown task type: " ++ t.task_type,
                            code := "EXECUTION_FAILED", retryable := some false }) := by
  have h2 : List.lookup t.task_id s.tasks = some t := h
  constructor
  · intro hlt
    simp only [executeTask, getTask, h2, hu, List.isEmpty_nil, if_true, hlt,
      createTask, updateTaskStatus, queueOf]
    constructor
    · exact assocSet_lookup_same ..
    · rw [assocSet_lookup_same]
      simp only [Option.getD_some, zadd]
      exact List.mem_append_right _ (List.mem_singleton.2 rfl)
  · intro hge
    simp only [executeTask, getTask, h2, hu, List.isEmpty_nil, if_true,
      updateTaskStatus]
    rw [if_neg hge]
    refine ⟨updatedRecord
        (updatedRecord t .running none none now) .failed
        (some { message := "Unknown task type: " ++ t.task_type,
                code := "EXECUTION_FAILED", retryable := some false }) none now, ?_, rfl, rfl⟩
    have hl : List.lookup t.task_id
        (assocSet s.tasks t.task_id (updatedRecord t .running none none now))
        = some (updatedRecord t .running none none now) := assocSet_lookup_same ..
    simp only [hl]
    exact assocSet_lookup_same ..

/-- Claim C3 (witness): the amended statement applied to the concrete
unknown-type task, first on its first attempt (`retry_count = 0`), then
with retries exhausted (`retry_count = 3`). -/
theorem unknown_task_type_retried_witness :
    (getTask (executeTask engineUnused storeUnknownType lbDefault 0 7 "t0") "t0"
        = some { mkTask "t0" "bogus_type" .queued 5 0 with retry_count := 0 + 1 }
      ∧ ("t0", (5 : Int)) ∈
          queueOf (executeTask engineUnused storeUnknownType lbDefault 0 7 "t0") "bogus_type")
    ∧ (∃ t2,
        getTask (executeTask engineUnused storeUnknownTypeExhausted lbDefault 0 7 "t0") "t0"
          = some t2
        ∧ t2.status = .failed
        ∧ t2.error = some { message := "Unknown task type: bogus_type",
                            code := "EXECUTION_FAILED", retryable := some false }) := by
  have h1 := unknown_task_type_retried_then_generic_failure engineUnused storeUnknownType
    lbDefault 0 7 (mkTask "t0" "bogus_type" .queued 5 0) (by decide) (by decide)
  have h2 := unknown_task_type_retried_then_generic_failure engineUnused
    storeUnknownTypeExhausted lbDefault 0 7 (mkTask "t0" "bogus_type" .queued 5 3)
    (by decide) (by decide)
  exact ⟨h1.1 (by decide), h2.2 (by decide)⟩

/-- Claim C5 (counterexample): with `"tb"` enqueued before `"ta"` at the
same priority, `get_next_task` pops `"ta"` — the Redis sorted set breaks
score ties by member byte order, not by insertion order, so the claimed
FIFO tie-break fails. -/
theorem equal_priority_pops_lex_not_fifo :
    ((queueOf tieStore "data_analysis").map (fun e => e.1) = ["tb", "ta"])
    ∧ (getNextTask tieStore "data_analysis").1 = some "ta" := by
  decide

/-- Claim C5 (amended): `get_next_task` removes and returns a task id of
minimum priority among those enqueued, with ties between equal
priorities broken by lexicographic (byte) order of the task id — not by
insertion order; draining ids enqueued with priorities 9, 1 and 5 still
yields priority 1 first, then 5, then 9. -/
theorem get_next_task_pops_min_lex :
    (∀ (s : Store) (tt id : String) (s2 : Store),
      getNextTask s tt = (some id, s2) →
      ∃ p, (id, p) ∈ queueOf s tt
        ∧ (∀ e ∈ queueOf s tt, p ≤ e.2 ∧ (e.2 = p → strLe id e.1 = true))
        ∧ queueOf s2 tt = (queueOf s tt).erase (id, p))
    ∧ ((getNextTask drainStore "data_analysis").1 = some "job-b"
      ∧ (getNextTask (getNextTask drainStore "data_analysis").2 "data_analysis").1
          = some "job-c"
      ∧ (getNextTask (getNextTask (getNextTask drainStore "data_analysis").2
          "data_analysis").2 "data_analysis").1 = some "job-a") := by
  constructor
  · intro s tt id s2 h
    cases hq : queueOf s tt with
    | nil =>
      simp only [getNextTask, hq, zpopmin] at h
      exact absurd h (by simp [Prod.ext_iff])
    | cons x xs =>
      simp only [getNextTask, hq, zpopmin] at h
      rw [Prod.mk.injEq] at h
      obtain ⟨hid, hs2⟩ := h
      injection hid with hid
      subst hid
      refine ⟨(zminEntry x xs).2, ?_, ?_, ?_⟩
      · exact zminEntry_mem x xs
      · intro e he
        have hmin := zminEntry_min x xs e he
        have hnot : ¬ (e.2 < (zminEntry x xs).2
            ∨ (e.2 = (zminEntry x xs).2 ∧ strLt e.1 (zminEntry x xs).1 = true)) := by
          rw [← zentryLt_iff]
          simp [hmin]
        push_neg at hnot
        refine ⟨hnot.1, ?_⟩
        intro hep
        have hns := hnot.2 hep
        simp only [strLe]
        simp only [Bool.not_eq_true] at hns
        rw [hns]
        rfl
      · rw [← hs2]
        simp only [queueOf, assocSet_lookup_same, Option.getD_some]
  · exact ⟨by decide, by decide, by decide⟩

/-- Claim C5 (witness): the amended pop property applied to the
two-entry equal-priority queue, where the popped id is the
lexicographically smaller `"ta"`. -/
theorem get_next_task_pops_min_lex_witness :
    ∃ p, ("ta", p) ∈ queueOf tieStore "data_analysis"
      ∧ (∀ e ∈ queueOf tieStore "data_analysis", p ≤ e.2 ∧ (e.2 = p → strLe "ta" e.1 = true))
      ∧ queueOf (getNextTask tieStore "data_analysis").2 "data_analysis"
          = (queueOf tieStore "data_analysis").erase ("ta", p) := by
  apply get_next_task_pops_min_lex.1 tieStore "data_analysis" "ta"
    (getNextTask tieStore "data_analysis").2
  rw [Prod.ext_iff]
  exact ⟨by decide, rfl⟩

theorem selectAgent_some_mem {lb : LBState} {s : Store} {now : ℚ} {rand : Nat}
    {ty : String} {a : AgentInfo} {lb2 : LBState}
    (h : selectAgent lb s now rand ty = (some a, lb2)) :
    a ∈ (getAgentsByType s ty).filter (isAgentAvailable now) := by
  unfold selectAgent at h
  by_cases hae : (getAgentsByType s ty).isEmpty
  · rw [if_pos hae] at h
    exact absurd (congrArg Prod.fst h) (by simp)
  · rw [if_neg hae] at h
    by_cases hav : ((getAgentsByType s ty).filter (isAgentAvailable now)).isEmpty
    · rw [if_pos hav] at h
      exact absurd (congrArg Prod.fst h) (by simp)
    · rw [if_neg hav] at h
      cases hst : lb.strategy
      all_goals rw [hst] at h
      · -- round_robin
        have hfst := congrArg Prod.fst h
        simp only [selectRoundRobin] at hfst
        rcases List.getElem?_eq_some_iff.1 hfst with ⟨hlt, heq⟩
        exact heq ▸ List.getElem_mem hlt
      · -- least_loaded
        have hfst := congrArg Prod.fst h
        simp only [selectLeastLoaded] at hfst
        have hm := mem_of_head_some hfst
        exact (List.perm_insertionSort _ _).mem_iff.mp hm
      · -- random
        have hfst := congrArg Prod.fst h
        simp only [selectRandomPick] at hfst
        rcases List.getElem?_eq_some_iff.1 hfst with ⟨hlt, heq⟩
        exact heq ▸ List.getElem_mem hlt
      · -- weighted
        have hfst := congrArg Prod.fst h
        simp only [selectWeighted] at hfst
        rcases Option.map_eq_some'.1 hfst with ⟨y, hy, hya⟩
        have hym := pickMaxScore_mem hy
        rcases List.mem_map.1 hym with ⟨b, hb, hfb⟩
        have : b = a := by
          rw [← hya, ← hfb]
        exact this ▸ hb

/-- Claim C7: `select_agent` returns an agent only if that agent's
record is registered under the capability and is healthy, heartbeat-
fresh (within 30 seconds of `now`) and strictly below capacity; and if
no record of the capability satisfies all three conditions, it returns
`None` — in particular an agent whose heartbeat is more than 30 seconds
old is never selected even when `healthy` is true. -/
theorem select_agent_filters_available (lb : LBState) (s : Store) (now : ℚ)
    (rand : Nat) (agent_type : String) :
    (∀ a lb2, selectAgent lb s now rand agent_type = (some a, lb2) →
      a ∈ agentRecordsOfType s agent_type ∧ a.healthy = true
      ∧ now - a.last_heartbeat ≤ 30 ∧ a.current_tasks < a.max_concurrent_tasks)
    ∧ ((∀ a ∈ agentRecordsOfType s agent_type,
        ¬ (a.healthy = true ∧ now - a.last_heartbeat ≤ 30
           ∧ a.current_tasks < a.max_concurrent_tasks)) →
      (selectAgent lb s now rand agent_type).1 = none) := by
  constructor
  · intro a lb2 h
    have hmem := selectAgent_some_mem h
    rcases List.mem_filter.1 hmem with ⟨hin, hava⟩
    rcases mem_getAgentsByType hin with ⟨hrec, hh⟩
    simp only [isAgentAvailable, Bool.and_eq_true, decide_eq_true_eq] at hava
    exact ⟨hrec, hh, hava.1.2, hava.2⟩
  · intro hnone
    have hav : (getAgentsByType s agent_type).filter (isAgentAvailable now) = [] := by
      rw [List.eq_nil_iff_forall_not_mem]
      intro a ha
      rcases List.mem_filter.1 ha with ⟨hmem, hava⟩
      rcases mem_getAgentsByType hmem with ⟨hrec, hh⟩
      simp only [isAgentAvailable, Bool.and_eq_true, decide_eq_true_eq] at hava
      exact hnone a hrec ⟨hh, hava.1.2, hava.2⟩
    unfold selectAgent
    by_cases hae : (getAgentsByType s agent_type).isEmpty
    · rw [if_pos hae]
    · rw [if_neg hae, hav]
      simp

/-- Claim C7 (witness): the filter applied to a store with one fresh
healthy agent (selected, and satisfying all three conditions) and to
the same record seen 100 seconds later (heartbeat stale, so no agent is
selected despite `healthy = true`). -/
theorem select_agent_filters_available_witness :
    (mkAgent "w1" "data_analysis" 5 0 true 0 ∈ agentRecordsOfType storeFresh "data_analysis"
      ∧ (mkAgent "w1" "data_analysis" 5 0 true 0).healthy = true
      ∧ (10 : ℚ) - (mkAgent "w1" "data_analysis" 5 0 true 0).last_heartbeat ≤ 30
      ∧ (mkAgent "w1" "data_analysis" 5 0 true 0).current_tasks
          < (mkAgent "w1" "data_analysis" 5 0 true 0).max_concurrent_tasks)
    ∧ (selectAgent lbDefault storeStaleHb 100 0 "data_analysis").1 = none := by
  have hlist : getAgentsByType storeFresh "data_analysis"
      = [mkAgent "w1" "data_analysis" 5 0 true 0] := by decide
  have hav : isAgentAvailable 10 (mkAgent "w1" "data_analysis" 5 0 true 0) = true := by
    simp only [isAgentAvailable, mkAgent, Bool.and_eq_true, decide_eq_true_eq]
    norm_num
  have hsel : selectAgent lbDefault storeFresh 10 0 "data_analysis"
      = (some (mkAgent "w1" "data_analysis" 5 0 true 0), lbDefault) := by
    simp [selectAgent, hlist, List.filter, hav, selectLeastLoaded, lbDefault]
  refine ⟨?_, ?_⟩
  · exact (select_agent_filters_available lbDefault storeFresh 10 0 "data_analysis").1
      (mkAgent "w1" "data_analysis" 5 0 true 0) lbDefault hsel
  · apply (select_agent_filters_available lbDefault storeStaleHb 100 0 "data_analysis").2
    intro a ha
    have hrec : agentRecordsOfType storeStaleHb "data_analysis"
        = [mkAgent "w1" "data_analysis" 5 0 true 0] := by decide
    rw [hrec] at ha
    have ha2 : a = mkAgent "w1" "data_analysis" 5 0 true 0 := by simpa using ha
    subst ha2
    rintro ⟨_, habs, _⟩
    simp only [mkAgent] at habs
    norm_num at habs

/-- Claim C9 (counterexample): for the two samples `[1, 2]`,
`get_histogram_stats` reports `p50 = 2`, while the nearest-rank median
(value at 1-based rank `ceil(0.5 * 2) = 1`) is `1` — the code indexes
the sorted list at `int(p/100 * n)`, which lands one rank high whenever
`p * n` is a multiple of 100. -/
theorem percentile_not_nearest_rank :
    (getHistogramStats [1, 2]).p50 = 2
    ∧ nearestRankSpec [1, 2] 50 = 1
    ∧ (getHistogramStats [1, 2]).p50 ≠ nearestRankSpec [1, 2] 50 := by
  decide

/-- Claim C9 (amended): for every non-empty sample list,
`get_histogram_stats` returns `count` equal to the number of samples,
`mean` their arithmetic mean, `min`/`max` the smallest and largest
sample; the percentiles are the sorted list's entry at 0-based index
`min(floor(p*n/100), n-1)`, which coincides with the nearest-rank
percentile exactly when `p * n` is not a multiple of 100 (otherwise it
is one rank higher). -/
theorem histogram_stats_amended (samples : List ℚ) (h : samples ≠ []) :
    (getHistogramStats samples).count = samples.length
    ∧ (getHistogramStats samples).mean = samples.sum / (samples.length : ℚ)
    ∧ (getHistogramStats samples).minV ∈ samples
    ∧ (∀ x ∈ samples, (getHistogramStats samples).minV ≤ x)
    ∧ (getHistogramStats samples).maxV ∈ samples
    ∧ (∀ x ∈ samples, x ≤ (getHistogramStats samples).maxV)
    ∧ (¬ (100 ∣ 50 * samples.length) →
        (getHistogramStats samples).p50 = nearestRankSpec samples 50)
    ∧ (¬ (100 ∣ 95 * samples.length) →
        (getHistogramStats samples).p95 = nearestRankSpec samples 95)
    ∧ (¬ (100 ∣ 99 * samples.length) →
        (getHistogramStats samples).p99 = nearestRankSpec samples 99) := by
  have hie : ¬ (samples.isEmpty = true) := by simpa [List.isEmpty_iff] using h
  have hperm := sortedSamples_perm samples
  have hsort := sortedSamples_sorted samples
  have hlen : (sortedSamples samples).length = samples.length := hperm.length_eq
  have hvne : sortedSamples samples ≠ [] := by
    intro hc
    apply h
    have h2 := hperm.length_eq
    rw [hc] at h2
    exact List.eq_nil_of_length_eq_zero h2.symm
  have hstats : getHistogramStats samples
      = { count := (sortedSamples samples).length,
          mean := (sortedSamples samples).sum / (((sortedSamples samples).length : Nat) : ℚ),
          p50 := percentileOf (sortedSamples samples) 50,
          p95 := percentileOf (sortedSamples samples) 95,
          p99 := percentileOf (sortedSamples samples) 99,
          minV := (sortedSamples samples).getD 0 0,
          maxV := (sortedSamples samples).getD ((sortedSamples samples).length - 1) 0 } := by
    simp only [getHistogramStats]
    rw [if_neg hie]
  rw [hstats]
  refine ⟨hlen, ?_, ?_, ?_, ?_, ?_, ?_, ?_, ?_⟩
  · show (sortedSamples samples).sum / (((sortedSamples samples).length : Nat) : ℚ)
        = samples.sum / (samples.length : ℚ)
    rw [hperm.sum_eq, hlen]
  · show (sortedSamples samples).getD 0 0 ∈ samples
    rw [← hperm.mem_iff]
    cases hv : sortedSamples samples with
    | nil => exact absurd hv hvne
    | cons a rest => simp [List.getD]
  · intro x hx
    exact sorted_head_le hsort hvne x (hperm.mem_iff.mpr hx)
  · show (sortedSamples samples).getD ((sortedSamples samples).length - 1) 0 ∈ samples
    rw [getD_last_eq_getLast hvne, ← hperm.mem_iff]
    exact List.getLast_mem hvne
  · intro x hx
    show x ≤ (sortedSamples samples).getD ((sortedSamples samples).length - 1) 0
    rw [getD_last_eq_getLast hvne]
    exact sorted_le_getLast (sortedSamples samples) hsort hvne x (hperm.mem_iff.mpr hx)
  · intro hnd
    exact percentileOf_eq_nearestRank (by norm_num) h hnd
  · intro hnd
    exact percentileOf_eq_nearestRank (by norm_num) h hnd
  · intro hnd
    exact percentileOf_eq_nearestRank (by norm_num) h hnd

/-- Claim C9 (witness): the amended statement applied to the samples
`[3, 1, 2]` (no percentile index is a multiple of 100 there, so all
three percentiles coincide with the nearest-rank values). -/
theorem histogram_stats_amended_witness :
    (getHistogramStats [3, 1, 2]).count = 3
    ∧ (getHistogramStats [3, 1, 2]).minV ∈ ([3, 1, 2] : List ℚ)
    ∧ (getHistogramStats [3, 1, 2]).p50 = nearestRankSpec [3, 1, 2] 50
    ∧ (getHistogramStats [3, 1, 2]).p95 = nearestRankSpec [3, 1, 2] 95
    ∧ (getHistogramStats [3, 1, 2]).p99 = nearestRankSpec [3, 1, 2] 99 := by
  have hw := histogram_stats_amended [3, 1, 2] (by decide)
  exact ⟨hw.1, hw.2.2.1, hw.2.2.2.2.2.2.1 (by decide), hw.2.2.2.2.2.2.2.1 (by decide),
         hw.2.2.2.2.2.2.2.2 (by decide)⟩
